import Mathlib

/-!
Verification development for the phantom-irc repository.

JavaScript strings are modelled as `List Char`; JS `null`/`undefined` (and,
for `detectProvider`, non-string inputs) are modelled with `Option`; thrown
exceptions are modelled with `Except`/`Option` error components; asynchronous
provider calls are modelled by passing the outcome of the call
(`Except Unit (List Char)`) as an explicit argument.
-/

namespace Phantom

/-- JS `String.prototype.startsWith`: `hasPre p s` is true iff `p` is a
prefix of `s` (pattern first, subject second). -/
def hasPre : List Char → List Char → Bool
  | [], _ => true
  | _ :: _, [] => false
  | p :: ps, c :: cs => p == c && hasPre ps cs

/-- JS `String.prototype.includes`: `includesL hay sub` is true iff `sub`
occurs contiguously inside `hay`. -/
def includesL : List Char → List Char → Bool
  | [], sub => sub.isEmpty
  | c :: rest, sub => hasPre sub (c :: rest) || includesL rest sub

/-- Characters treated as whitespace by `String.prototype.trim` (the forms
that occur in this codebase). -/
def isWS (c : Char) : Bool :=
  c == ' ' || c == '\n' || c == '\t' || c == '\r'

/-- JS `String.prototype.trim`. -/
def trimL (s : List Char) : List Char :=
  ((((s.dropWhile isWS).reverse).dropWhile isWS)).reverse

/-- JS `String.prototype.toLowerCase` on the ASCII strings this code uses. -/
def toLowerL (s : List Char) : List Char := s.map Char.toLower

/-- JS `String.prototype.toUpperCase` on the ASCII strings this code uses. -/
def toUpperL (s : List Char) : List Char := s.map Char.toUpper

/-- JS `String.prototype.split(sep)` for a one-character separator. -/
def splitOnC (sep : Char) : List Char → List (List Char)
  | [] => [[]]
  | c :: rest =>
    if c == sep then [] :: splitOnC sep rest
    else
      match splitOnC sep rest with
      | [] => [[c]]
      | h :: t => (c :: h) :: t

/-- Numeric value of a nonempty run of decimal digits. -/
def digitsVal (ds : List Char) : Nat :=
  ds.foldl (fun acc c => acc * 10 + (c.toNat - ('0').toNat)) 0

/-- JS `parseInt(s)` (radix 10, as at every call site of this codebase:
optional leading whitespace, optional sign, then a maximal run of decimal
digits). `none` models `NaN`. -/
def parseIntJS (s : List Char) : Option Int :=
  let t := s.dropWhile isWS
  match t with
  | '-' :: rest =>
    let d := rest.takeWhile Char.isDigit
    if d.isEmpty then none else some (-(digitsVal d : Int))
  | '+' :: rest =>
    let d := rest.takeWhile Char.isDigit
    if d.isEmpty then none else some (digitsVal d)
  | _ =>
    let d := t.takeWhile Char.isDigit
    if d.isEmpty then none else some (digitsVal d)

/-- JS `x || d` where `x` is a possibly-`NaN` number (`none` models `NaN`;
`0` is falsy). -/
def jsOrInt (x : Option Int) (d : Int) : Int :=
  match x with
  | none => d
  | some n => if n = 0 then d else n

/-- JS `x || d` where `x` is a possibly-`undefined` string (`none` models
`undefined`; the empty string is falsy). -/
def jsOrStr (x : Option (List Char)) (d : List Char) : List Char :=
  match x with
  | none => d
  | some s => if s = [] then d else s

/-! ### Provider registry (`detectProvider`, src/unnamed/part_003) -/

/-- Vendor identifiers returned by `detectProvider`. -/
inductive Provider where
  | anthropic
  | openai
  | gemini
  | groq
  | mistral
deriving DecidableEq

/-- `detectProvider(apiKey)` from the multi-provider abstraction layer.
`none` as input models `null`/`undefined`/non-string values (all rejected by
the `!apiKey || typeof apiKey !== 'string'` guard); the guard also rejects
the empty string, which is falsy in JS. -/
def detectProvider (apiKey : Option (List Char)) : Option Provider :=
  match apiKey with
  | none => none
  | some key =>
    if key = [] then none
    else if hasPre ("sk-ant-".toList) key then some .anthropic
    else if hasPre ("gsk_".toList) key then some .groq
    else if hasPre ("AIza".toList) key then some .gemini
    else if key.length = 32 && key.all Char.isAlphanum then some .mistral
    else if hasPre ("sk-proj-".toList) key ||
            (hasPre ("sk-".toList) key && !hasPre ("sk-ant-".toList) key) then
      some .openai
    else none

/-- The spec's §4.1 ruleset, written as a first-match ordered list:
"sk-ant-" → anthropic; "gsk_" → groq; "AIza" → gemini; 32-character
alphanumeric → mistral; "sk-" → openai; otherwise none. -/
def detectProviderRuleset (apiKey : Option (List Char)) : Option Provider :=
  match apiKey with
  | none => none
  | some key =>
    if hasPre ("sk-ant-".toList) key then some .anthropic
    else if hasPre ("gsk_".toList) key then some .groq
    else if hasPre ("AIza".toList) key then some .gemini
    else if key.length = 32 && key.all Char.isAlphanum then some .mistral
    else if hasPre ("sk-".toList) key then some .openai
    else none

theorem hasPre_append (p q s : List Char) (h : hasPre (p ++ q) s = true) :
    hasPre p s = true := by
  induction p generalizing s with
  | nil => rfl
  | cons a p ih =>
    cases s with
    | nil => simp [hasPre] at h
    | cons c cs =>
      simp only [List.cons_append, hasPre, Bool.and_eq_true] at h ⊢
      exact ⟨h.1, ih cs h.2⟩

/-- C1: `detectProvider` agrees everywhere with the spec's ordered ruleset.
`detectProvider` is a total Lean function, so it returns a vendor identifier
or `none` on every input (including `none`, which models `null`/non-string
inputs, and the empty string) without throwing, and equality with the
first-match ruleset `detectProviderRuleset` gives order-consistency: a key
matching an earlier rule is never classified under a later rule. -/
theorem detectProvider_matches_ruleset (apiKey : Option (List Char)) :
    detectProvider apiKey = detectProviderRuleset apiKey := by
  cases apiKey with
  | none => rfl
  | some k =>
    show detectProvider (some k) = detectProviderRuleset (some k)
    by_cases h0 : k = []
    · subst h0; rfl
    · simp only [detectProvider, detectProviderRuleset, if_neg h0]
      cases hA : hasPre ("sk-ant-".toList) k <;>
        cases hG : hasPre ("gsk_".toList) k <;>
          cases hZ : hasPre ("AIza".toList) k <;>
            cases hM : (k.length = 32 && k.all Char.isAlphanum) <;>
              simp only [hA, hG, hZ, hM, if_true, if_false, Bool.false_eq_true,
                Bool.not_false, Bool.and_true, if_pos, cond_true, cond_false]
      all_goals first
        | rfl
        | (cases hP : hasPre ("sk-proj-".toList) k
           · simp only [hP, Bool.false_or]
           · have hD : hasPre ("sk-".toList) k = true := by
               have : ("sk-".toList) ++ ("proj-".toList) = ("sk-proj-".toList) := by decide
               exact hasPre_append _ _ _ (this ▸ hP)
             simp only [hP, hD, Bool.true_or, if_true])

/-! ### Label-based response parsing (the `result.match(/LABEL: .../)` calls
of src/src/lib/ai-service.js). Each regex used there is a literal label
followed by a capture; matching scans left to right for the first position
where the whole pattern matches, exactly as the JS regex engine does. -/

/-- Try a position matcher at every suffix of the subject, left to right,
returning the first hit (the scan a JS regex performs to find its match). -/
def scanFirst {α : Type} (f : List Char → Option α) : List Char → Option α
  | [] => f []
  | c :: rest =>
    match f (c :: rest) with
    | some a => some a
    | none => scanFirst f rest

/-- `s.match(/LABEL: (.*)/)?.[1]`: capture from after the first occurrence of
the label up to the end of the line (`.` does not match a newline). -/
def matchCapLine (label : List Char) (s : List Char) : Option (List Char) :=
  scanFirst (fun r =>
    if hasPre label r then some ((r.drop label.length).takeWhile (· ≠ '\n'))
    else none) s

/-- `s.match(/LABEL: (.*)/s)?.[1]`: with the `s` flag the greedy capture runs
to the end of the whole string. -/
def matchCapAll (label : List Char) (s : List Char) : Option (List Char) :=
  scanFirst (fun r =>
    if hasPre label r then some (r.drop label.length) else none) s

/-- `s.match(/LABEL(\d+)/)?.[1]`: at each occurrence of the label, a maximal
nonempty run of decimal digits must follow; otherwise the scan continues. -/
def matchCapDigits (label : List Char) (s : List Char) : Option (List Char) :=
  scanFirst (fun r =>
    if hasPre label r then
      let d := (r.drop label.length).takeWhile Char.isDigit
      if d.isEmpty then none else some d
    else none) s

/-- `s.match(/FOUND: (YES|NO)/)?.[1]` from `findPastAnswer`. -/
def matchFound (s : List Char) : Option (List Char) :=
  scanFirst (fun r =>
    if hasPre ("FOUND: YES".toList) r then some ("YES".toList)
    else if hasPre ("FOUND: NO".toList) r then some ("NO".toList)
    else none) s

/-! ### AI feature services (src/src/lib/ai-service.js)

Each service of the `PhantomAI` class is embedded as a pure function taking
`enabled` (whether an API key was bound) and, when the service would reach
its provider call, the outcome of that call as an
`Except Unit (List Char)` argument (`.error` models a rejected promise). -/

/-- A stored chat message as the services consume it
(`{from, to, message, time, type}`, with the JS keys `from`/`to` spelled
`from_`/`to_`); `to_` is `Option` because the mock
client's messages carry no `to` field (`msg.to || 'unknown'`). -/
structure Msg where
  from_ : List Char
  to_ : Option (List Char)
  message : List Char
  time : Int
  type : List Char
deriving DecidableEq

/-- Result shape of `checkSpam`. -/
structure SpamResult where
  isSpam : Bool
  confidence : Int
  reason : List Char
deriving DecidableEq

/-- `checkSpam(message, channel)`: splits the trimmed reply on `|`, trims the
fields, uppercases the classification, coerces the confidence with
`parseInt(confidence) || 50` and the reason with `reason || '...'`. -/
def checkSpam (enabled : Bool) (message channel : List Char)
    (po : Except Unit (List Char)) : SpamResult :=
  if !enabled then ⟨false, 0, "AI disabled".toList⟩
  else
    match po with
    | .error _ => ⟨false, 0, "AI error".toList⟩
    | .ok reply =>
      let result := trimL reply
      let parts := (splitOnC '|' result).map trimL
      let classification := (parts.get? 0).getD []
      { isSpam := toUpperL classification = ("SPAM".toList)
        confidence := jsOrInt ((parts.get? 1).bind parseIntJS) 50
        reason := jsOrStr (parts.get? 2) ("No reason provided".toList) }

/-- `summarizeMessages(messages, channel)`: disabled text without a key, a
fixed text on an empty list (before any provider call), the trimmed reply on
success, and a fixed failure string when the provider call rejects. -/
def summarizeMessages (enabled : Bool) (messages : List Msg)
    (channel : List Char) (po : Except Unit (List Char)) : List Char :=
  if !enabled then "AI summarization disabled. No API key provided.".toList
  else if messages.isEmpty then "No messages to summarize.".toList
  else
    match po with
    | .error _ => "Failed to generate summary. AI service error.".toList
    | .ok reply => trimL reply

/-- The three notification priorities. -/
inductive Priority where
  | high
  | medium
  | low
deriving DecidableEq

/-- Result shape of `getNotificationPriority`. -/
structure PriorityResult where
  priority : Priority
  reason : List Char
deriving DecidableEq

/-- `getNotificationPriority(message, userNick)`: a case-insensitive mention
of the user's nick short-circuits to high before any provider call; an
out-of-enum reply or a rejected call falls back to medium. -/
def getNotificationPriority (enabled : Bool) (message userNick : List Char)
    (po : Except Unit (List Char)) : PriorityResult :=
  if !enabled then ⟨.medium, "AI disabled".toList⟩
  else if includesL (toLowerL message) (toLowerL userNick) then
    ⟨.high, "Direct mention".toList⟩
  else
    match po with
    | .error _ => ⟨.medium, "AI error".toList⟩
    | .ok reply =>
      let p := toLowerL (trimL reply)
      { priority :=
          if p = ("high".toList) then .high
          else if p = ("medium".toList) then .medium
          else if p = ("low".toList) then .low
          else .medium
        reason := "AI analysis".toList }

/-- Result shape of `smartCatchUp`. -/
structure CatchUpResult where
  topics : List (List Char)
  keyDecisions : List (List Char)
  codeShared : Int
  summary : List Char
deriving DecidableEq

/-- `.split('|').map(s => s.trim()).filter(Boolean)` (the empty string is
falsy, so blank segments are dropped). -/
def splitTrimFilter (s : List Char) : List (List Char) :=
  ((splitOnC '|' s).map trimL).filter (fun x => x ≠ [])

/-- The `TOPICS:` field of a `smartCatchUp` reply, parsed independently with
default `[]`. -/
def catchUpTopics (result : List Char) : List (List Char) :=
  match matchCapLine ("TOPICS: ".toList) result with
  | some cap => splitTrimFilter cap
  | none => []

/-- The `DECISIONS:` field, parsed independently with default `[]`. -/
def catchUpDecisions (result : List Char) : List (List Char) :=
  match matchCapLine ("DECISIONS: ".toList) result with
  | some cap => splitTrimFilter cap
  | none => []

/-- The `CODE_SNIPPETS:` field: `parseInt(match?.[1] || '0')`; the argument
is always `'0'` or a nonempty digit run, so `parseInt` cannot yield `NaN`
here and the `Option` is discharged with `0`. -/
def catchUpCode (result : List Char) : Int :=
  (parseIntJS ((matchCapDigits ("CODE_SNIPPETS: ".toList) result).getD
    ("0".toList))).getD 0

/-- The `SUMMARY:` field: `match?.[1]?.trim() || 'No summary available'`. -/
def catchUpSummary (result : List Char) : List Char :=
  jsOrStr ((matchCapLine ("SUMMARY: ".toList) result).map trimL)
    ("No summary available".toList)

/-- `smartCatchUp(messages, channel)`: one provider call whose reply is
parsed field by field with the four independent extractors above. -/
def smartCatchUp (enabled : Bool) (messages : List Msg) (channel : List Char)
    (po : Except Unit (List Char)) : CatchUpResult :=
  if !enabled then ⟨[], [], 0, "AI disabled".toList⟩
  else if messages.isEmpty then ⟨[], [], 0, "No messages".toList⟩
  else
    match po with
    | .error _ => ⟨[], [], 0, "AI error".toList⟩
    | .ok reply =>
      let result := trimL reply
      { topics := catchUpTopics result
        keyDecisions := catchUpDecisions result
        codeShared := catchUpCode result
        summary := catchUpSummary result }

/-- A past question/answer pair as supplied to `findPastAnswer`. -/
structure QA where
  question : List Char
  answer : List Char
  author : List Char
  timestamp : Int
deriving DecidableEq

/-- Result shape of `findPastAnswer`; `original` is `none` when the JS
result carries no `original` key or when `pastAnswers[parseInt(matchId)]`
is `undefined` (an out-of-range index). -/
structure PastAnswerResult where
  foundAnswer : Bool
  answer : Option (List Char)
  similarity : Int
  original : Option QA
deriving DecidableEq

/-- The `YES` value of a `findPastAnswer` reply's `FOUND` field. -/
def yesToken : List Char := "YES".toList

/-- The `'none'` placeholder answer of a `findPastAnswer` reply. -/
def noneToken : List Char := "none".toList

/-- The `MATCH_ID: Q` label of a `findPastAnswer` reply. -/
def midLabel : List Char := "MATCH_ID: Q".toList

/-- The `SIMILARITY: ` label of a `findPastAnswer` reply. -/
def simLabel : List Char := "SIMILARITY: ".toList

/-- The `SUGGESTED_ANSWER: ` label of a `findPastAnswer` reply. -/
def sugLabel : List Char := "SUGGESTED_ANSWER: ".toList

/-- `findPastAnswer(question, pastAnswers)`: parses `FOUND`, `MATCH_ID`,
`SIMILARITY` and `SUGGESTED_ANSWER` from the trimmed reply; the success
branch requires `found && matchId && suggestedAnswer && suggestedAnswer !==
'none'` (JS truthiness: the digit capture is always nonempty, the suggested
answer must be defined and nonempty) and then reads
`pastAnswers[parseInt(matchId)]` without any range check. -/
def findPastAnswer (enabled : Bool) (question : List Char)
    (pastAnswers : List QA) (po : Except Unit (List Char)) : PastAnswerResult :=
  if !enabled || pastAnswers.isEmpty then ⟨false, none, 0, none⟩
  else
    match po with
    | .error _ => ⟨false, none, 0, none⟩
    | .ok reply =>
      let result := trimL reply
      let found := matchFound result = some yesToken
      let matchId := matchCapDigits midLabel result
      let similarity :=
        (parseIntJS ((matchCapDigits simLabel result).getD ("0".toList))).getD 0
      let suggested := (matchCapAll sugLabel result).map trimL
      match matchId, suggested with
      | some mid, some sug =>
        if found ∧ sug ≠ [] ∧ sug ≠ noneToken then
          { foundAnswer := true
            answer := some sug
            similarity := similarity
            original := pastAnswers.get? ((parseIntJS mid).getD 0).toNat }
        else ⟨false, none, similarity, none⟩
      | _, _ => ⟨false, none, similarity, none⟩

/-! ### Code-snippet extraction (`extractCodeSnippets`)

Stage 1 is the `matchAll` over the fenced-block regex (a fence of three
backticks, an optional word-character language tag, a newline, a lazy
nonempty body, a closing fence); stage 2 is one classification call per
candidate with a per-candidate `try`/`catch`. -/

/-- The backtick character of a code fence. -/
def btick : Char := Char.ofNat 96

/-- A code fence: three backticks. -/
def fence : List Char := [btick, btick, btick]

/-- `\w` of the fenced-block regex: ASCII letters, digits and underscore. -/
def isWordChar (c : Char) : Bool := c.isAlphanum || c == '_'

/-- Split the subject at the first occurrence of a closing fence: returns
the characters before the fence and the remainder after it. -/
def findFence : List Char → Option (List Char × List Char)
  | [] => none
  | c :: rest =>
    if hasPre fence (c :: rest) then some ([], rest.drop 2)
    else
      match findFence rest with
      | some (pre, after) => some (c :: pre, after)
      | none => none

/-- The lazy nonempty body `([\s\S]+?)` followed by a closing fence: the
body must contain at least one character, so the closing fence is searched
from position 1 on. -/
def findClose (body : List Char) : Option (List Char × List Char) :=
  match body with
  | [] => none
  | c :: rest =>
    match findFence rest with
    | some (pre, after) => some (c :: pre, after)
    | none => none

/-- One attempt of the fenced-block regex anchored at the head of `s`:
on a match, returns the optional language capture, the raw body capture and
the remainder of the subject after the whole match. -/
def fenceAt (s : List Char) :
    Option (Option (List Char) × List Char × List Char) :=
  if hasPre fence s then
    let rest := s.drop 3
    let lang := rest.takeWhile isWordChar
    let rest2 := rest.drop lang.length
    match rest2 with
    | c :: body =>
      if c = '\n' then
        match findClose body with
        | some (code, after) =>
          some (if lang = [] then none else some lang, code, after)
        | none => none
      else none
    | [] => none
  else none

theorem findFence_length {s pre after : List Char}
    (h : findFence s = some (pre, after)) : after.length < s.length := by
  induction s generalizing pre after with
  | nil => simp [findFence] at h
  | cons c rest ih =>
    simp only [findFence] at h
    by_cases hp : hasPre fence (c :: rest) = true
    · simp only [hp, if_true] at h
      cases h
      have : (rest.drop 2).length ≤ rest.length := by
        rw [List.length_drop]; omega
      simp only [List.length_cons]
      omega
    · simp only [hp] at h
      cases hf : findFence rest with
      | none => simp [hf] at h
      | some pa =>
        obtain ⟨p', a'⟩ := pa
        simp only [hf] at h
        cases h
        exact Nat.lt_succ_of_lt (ih hf)

theorem findClose_length {body code after : List Char}
    (h : findClose body = some (code, after)) : after.length < body.length := by
  cases body with
  | nil => simp [findClose] at h
  | cons c rest =>
    simp only [findClose] at h
    cases hf : findFence rest with
    | none => simp [hf] at h
    | some pa =>
      obtain ⟨p', a'⟩ := pa
      simp only [hf] at h
      cases h
      exact Nat.lt_succ_of_lt (findFence_length hf)

theorem fenceAt_length {s : List Char}
    {lang : Option (List Char)} {code after : List Char}
    (h : fenceAt s = some (lang, code, after)) : after.length < s.length := by
  unfold fenceAt at h
  by_cases hp : hasPre fence s = true
  · simp only [hp, if_true] at h
    cases hr2 : (s.drop 3).drop (((s.drop 3).takeWhile isWordChar).length) with
    | nil => rw [hr2] at h; simp at h
    | cons c body =>
      rw [hr2] at h
      by_cases hc : c = '\n'
      · simp only [hc, if_true, if_pos] at h
        cases hf : findClose body with
        | none => simp [hf] at h
        | some ca =>
          obtain ⟨code', after'⟩ := ca
          simp only [hf] at h
          cases h
          have h1 : after.length < body.length := findClose_length hf
          have h2 : body.length < (c :: body).length := by
            simp [List.length_cons]
          have h3 : (c :: body).length ≤ (s.drop 3).length := by
            rw [← hr2, List.length_drop]; omega
          have h4 : (s.drop 3).length ≤ s.length := by
            rw [List.length_drop]; omega
          omega
      · simp [hc] at h
  · simp [hp] at h

/-- The scan of `msg.message.matchAll(/```(\w+)?\n([\s\S]+?)```/g)`: try the
pattern at the current position; on a match consume it and continue after
the whole match, otherwise advance one character. The structural `fuel`
argument bounds the recursion; `fuel = s.length` always suffices because
every step consumes at least one character (`fenceAt_length`), as
`cbmAux_fuel` below proves. -/
def cbmAux : Nat → List Char → List (Option (List Char) × List Char)
  | 0, _ => []
  | fuel + 1, s =>
    match fenceAt s with
    | some (lang, code, after) => (lang, code) :: cbmAux fuel after
    | none =>
      match s with
      | [] => []
      | _ :: rest => cbmAux fuel rest

/-- All fenced-block matches of a message body, in order: the candidate
list of stage 1 of `extractCodeSnippets` (optional language capture and raw
body capture per match). -/
def codeBlockMatches (s : List Char) : List (Option (List Char) × List Char) :=
  cbmAux s.length s

theorem cbmAux_fuel (f1 : Nat) : ∀ (f2 : Nat) (s : List Char),
    s.length ≤ f1 → s.length ≤ f2 → cbmAux f1 s = cbmAux f2 s := by
  induction f1 with
  | zero =>
    intro f2 s h1 _
    have hs : s = [] := List.eq_nil_of_length_eq_zero (Nat.le_zero.mp h1)
    subst hs
    cases f2 with
    | zero => rfl
    | succ g => rfl
  | succ f ih =>
    intro f2 s h1 h2
    cases s with
    | nil =>
      cases f2 with
      | zero => rfl
      | succ g => rfl
    | cons c rest =>
      cases f2 with
      | zero => simp [List.length_cons] at h2
      | succ g =>
        simp only [cbmAux]
        cases hf : fenceAt (c :: rest) with
        | some x =>
          obtain ⟨lang, code, after⟩ := x
          have hlt : after.length < (c :: rest).length := fenceAt_length hf
          simp only [List.length_cons] at h1 h2 hlt
          show (lang, code) :: cbmAux f after = (lang, code) :: cbmAux g after
          rw [ih g after (by omega) (by omega)]
        | none =>
          simp only [List.length_cons] at h1 h2
          show (match (c :: rest : List Char) with
            | [] => []
            | _ :: rest => cbmAux f rest) =
            (match (c :: rest : List Char) with
            | [] => []
            | _ :: rest => cbmAux g rest)
          show cbmAux f rest = cbmAux g rest
          rw [ih g rest (by omega) (by omega)]

/-- The fuel-based `codeBlockMatches` satisfies the true recurrence of the
`matchAll` scan: consume a whole match when the pattern fires here,
otherwise advance one character. -/
theorem codeBlockMatches_step (s : List Char) :
    codeBlockMatches s =
      match fenceAt s with
      | some x => (x.1, x.2.1) :: codeBlockMatches x.2.2
      | none =>
        match s with
        | [] => []
        | _ :: rest => codeBlockMatches rest := by
  cases s with
  | nil =>
    show cbmAux 0 [] = _
    cases hf : fenceAt ([] : List Char) with
    | some x =>
      exact absurd (fenceAt_length hf) (by simp)
    | none => rfl
  | cons c rest =>
    show cbmAux (c :: rest).length (c :: rest) = _
    simp only [List.length_cons, cbmAux]
    cases hf : fenceAt (c :: rest) with
    | some x =>
      obtain ⟨lang, code, after⟩ := x
      have hlt : after.length < (c :: rest).length := fenceAt_length hf
      simp only [List.length_cons] at hlt
      show (lang, code) :: cbmAux rest.length after =
        (lang, code) :: codeBlockMatches after
      rw [cbmAux_fuel rest.length after.length after (by omega) (by omega)]
      rfl
    | none => rfl

/-- A catalogued code snippet
(`{code, language, author, context, category, timestamp, channel}`). -/
structure Snippet where
  code : List Char
  language : List Char
  author : List Char
  context : List Char
  category : List Char
  timestamp : Int
  channel : List Char
deriving DecidableEq

/-- Stage 2 of `extractCodeSnippets` for one candidate: one classification
call wrapped in `try`/`catch`. On success the labeled reply fields are
parsed with their defaults; on a rejected call the snippet is kept with the
generic classification (`context: 'Code snippet'`, `category: 'general'`)
and the block's own language tag. -/
def analyzeSnippet (classify : List Char → Except Unit (List Char)) (m : Msg)
    (lang : Option (List Char)) (rawCode : List Char) : Snippet :=
  let language := lang.getD ("unknown".toList)
  let code := trimL rawCode
  match classify code with
  | .ok analysisRaw =>
    let analysis := trimL analysisRaw
    { code := code
      language := jsOrStr ((matchCapLine ("LANGUAGE: ".toList) analysis).map trimL)
        language
      author := m.from_
      context := jsOrStr ((matchCapLine ("PURPOSE: ".toList) analysis).map trimL)
        ("Code snippet".toList)
      category := jsOrStr ((matchCapLine ("CATEGORY: ".toList) analysis).map trimL)
        ("general".toList)
      timestamp := m.time
      channel := jsOrStr m.to_ ("unknown".toList) }
  | .error _ =>
    { code := code
      language := language
      author := m.from_
      context := "Code snippet".toList
      category := "general".toList
      timestamp := m.time
      channel := jsOrStr m.to_ ("unknown".toList) }

/-- `extractCodeSnippets(messages)`: the empty list when disabled, otherwise
one snippet per fenced-block candidate of every message, in message order
then match order (the JS double loop pushing onto `snippets`). -/
def extractCodeSnippets (enabled : Bool)
    (classify : List Char → Except Unit (List Char))
    (messages : List Msg) : List Snippet :=
  if !enabled then []
  else
    (messages.map (fun m =>
      (codeBlockMatches m.message).map
        (fun lc => analyzeSnippet classify m lc.1 lc.2))).flatten

/-! ### Session stores (src/src/lib/irc-client.js and src/src/lib/mock-irc.js)

JS objects used as string-keyed maps (`this.messages`, `this.users`) are
modelled as association lists; `Date.now()` / `new Date()` are modelled by
an explicit `now` argument; a thrown precondition error is modelled by
returning the untouched state together with `some` error (the JS `throw`
happens before any mutation). Only the synchronous effects of each call are
modelled: `setTimeout` callbacks (the mock's simulated replies and
join notifications) and network traffic are outside the state captured
here. -/

/-- The one error thrown or reported by both backends'
`'Not connected to IRC server'` precondition checks. -/
inductive IrcError where
  | notConnected
deriving DecidableEq

/-- JS property read `obj[key]` on a string-keyed object. -/
def lookupA {α : Type} : List (List Char × α) → List Char → Option α
  | [], _ => none
  | (k', v') :: rest, k => if k' == k then some v' else lookupA rest k

/-- JS property write `obj[key] = v` on a string-keyed object. -/
def setA {α : Type} : List (List Char × α) → List Char → α →
    List (List Char × α)
  | [], k, v => [(k, v)]
  | (k', v') :: rest, k, v =>
    if k' == k then (k, v) :: rest else (k', v') :: setA rest k v

/-- JS `Array.prototype.includes` on an array of strings (the
`this.channels.includes(...)` checks). -/
def memberL : List (List Char) → List Char → Bool
  | [], _ => false
  | c :: rest, x => c == x || memberL rest x

/-- `indexOf` + `splice(index, 1)` of the mock's `partChannel`: remove the
first occurrence, identity when absent. -/
def eraseFirst : List (List Char) → List Char → List (List Char)
  | [], _ => []
  | c :: rest, x => if c == x then rest else c :: eraseFirst rest x

/-- Occurrences of a channel name in the joined-channel array. -/
def countL : List (List Char) → List Char → Nat
  | [], _ => 0
  | c :: rest, x => (if c == x then 1 else 0) + countL rest x

/-- State of the live `PhantomIRCClient`: `hasClient` models
`this.client !== null`, `nick` models `this.client.user.nick`. -/
structure LiveState where
  connected : Bool
  hasClient : Bool
  channels : List (List Char)
  messages : List (List Char × List Msg)
  users : List (List Char × List (List Char))
  nick : List Char
deriving DecidableEq

/-- Live `sendMessage(target, message)`: throws the precondition error
before any mutation when not connected; otherwise hands the text to the
transport (`client.say`, no local effect) and appends an `own`-typed
message to the target's log, creating the log if absent. -/
def sendMessageL (now : Int) (st : LiveState) (target text : List Char) :
    LiveState × Option IrcError :=
  if !st.connected || !st.hasClient then (st, some .notConnected)
  else
    let log := (lookupA st.messages target).getD []
    ({ st with
        messages := setA st.messages target
          (log ++ [{ from_ := st.nick, to_ := some target, message := text,
                     time := now, type := "own".toList }]) },
     none)

/-- Live `partChannel(channel)`: throws when not connected; otherwise only
asks the transport to part (`client.part`), with no synchronous change to
the local channel list, logs or rosters. -/
def partChannelL (st : LiveState) (channel : List Char) :
    LiveState × Option IrcError :=
  if !st.connected || !st.hasClient then (st, some .notConnected)
  else (st, none)

/-- Live `joinChannel(channel)`: throws when not connected; otherwise only
asks the transport to join; the local channel list changes in the `join`
event handler (`handleJoinL`). -/
def joinChannelL (st : LiveState) (channel : List Char) :
    LiveState × Option IrcError :=
  if !st.connected || !st.hasClient then (st, some .notConnected)
  else (st, none)

/-- The live client's `'join'` event handler: when the event is about our
own nick, add the channel to `this.channels` unless already present. -/
def handleJoinL (st : LiveState) (eventNick eventChannel : List Char) :
    LiveState :=
  if eventNick == st.nick then
    { st with
        channels :=
          if memberL st.channels eventChannel then st.channels
          else st.channels ++ [eventChannel] }
  else st

/-- A mock-client message (`{user, text, timestamp}`). -/
structure MockMsg where
  user : List Char
  text : List Char
  timestamp : Int
deriving DecidableEq

/-- State of the `MockIRCClient`. -/
structure MockState where
  connected : Bool
  channels : List (List Char)
  messages : List (List Char × List MockMsg)
  users : List (List Char × List (List Char))
  currentUser : List Char
deriving DecidableEq

/-- The mock's `getMockMessages(channel)` seed history (timestamps are
offsets from `Date.now()`, passed here as `now`). -/
def getMockMessages (now : Int) (channel : List Char) : List MockMsg :=
  if channel = ("#phantom-demo".toList) then
    [ ⟨"alice".toList, "Hey everyone! Welcome to Phantom IRC!".toList, now - 3600000⟩,
      ⟨"bob".toList, "This is pretty cool, how does the AI spam filter work?".toList, now - 3500000⟩,
      ⟨"alice".toList, "It uses Claude to analyze messages in real-time before sending".toList, now - 3400000⟩,
      ⟨"charlie".toList, "Check out this link: https://example.com/cool-project".toList, now - 3300000⟩,
      ⟨"diana".toList, "Can someone help me with IRC commands?".toList, now - 3200000⟩,
      ⟨"eve".toList, "Sure! Type /join #channel to join a channel".toList, now - 3100000⟩,
      ⟨"bob".toList, "The AI summary feature is really handy for catching up".toList, now - 3000000⟩,
      ⟨"alice".toList, "Yeah, especially for busy channels with lots of activity".toList, now - 2900000⟩,
      ⟨"charlie".toList, "Is this open source?".toList, now - 2800000⟩,
      ⟨"diana".toList, "Built for Kiroween 2024 hackathon!".toList, now - 2700000⟩ ]
  else if channel = ("#dev-chat".toList) then
    [ ⟨"dev1".toList, "Working on a new React component".toList, now - 7200000⟩,
      ⟨"dev2".toList, "Nice! Are you using hooks?".toList, now - 7100000⟩,
      ⟨"techie".toList, "Hooks are the way to go these days".toList, now - 7000000⟩,
      ⟨"coder".toList, "Anyone tried the new Vite features?".toList, now - 6900000⟩,
      ⟨"dev1".toList, "Vite is blazing fast compared to webpack".toList, now - 6800000⟩,
      ⟨"dev2".toList, "The HMR is incredible".toList, now - 6700000⟩,
      ⟨"techie".toList, "What are you all building?".toList, now - 6600000⟩,
      ⟨"coder".toList, "Working on an AI-powered IRC client".toList, now - 6500000⟩ ]
  else if channel = ("#random".toList) then
    [ ⟨"user1".toList, "Good morning everyone!".toList, now - 10800000⟩,
      ⟨"user2".toList, "Morning! How's everyone doing?".toList, now - 10700000⟩,
      ⟨"user3".toList, "Pretty good, just having coffee".toList, now - 10600000⟩,
      ⟨"user1".toList, "Coffee is life ☕".toList, now - 10500000⟩ ]
  else []

/-- The user list of `getMockChannels().find(c => c.name === channelName)`,
falling back to the default channel data `{users: [this.currentUser]}`. -/
def mockChannelUsers (currentUser : List Char) (channelName : List Char) :
    List (List Char) :=
  if channelName = ("#phantom-demo".toList) then
    ["alice".toList, "bob".toList, "charlie".toList, "diana".toList,
     "eve".toList, currentUser]
  else if channelName = ("#dev-chat".toList) then
    ["dev1".toList, "dev2".toList, "techie".toList, "coder".toList, currentUser]
  else if channelName = ("#random".toList) then
    ["user1".toList, "user2".toList, "user3".toList, currentUser]
  else [currentUser]

/-- Mock `joinChannel(channelName)`: reports the not-connected error through
the error callback (no state change) when disconnected; otherwise pushes the
channel unless already present and lazily seeds the channel's message log
and roster; the join/userlist notifications are asynchronous callbacks. -/
def joinChannelM (now : Int) (st : MockState) (channelName : List Char) :
    MockState × Option IrcError :=
  if !st.connected then (st, some .notConnected)
  else
    { st with
        channels :=
          if memberL st.channels channelName then st.channels
          else st.channels ++ [channelName]
        messages :=
          match lookupA st.messages channelName with
          | some _ => st.messages
          | none => setA st.messages channelName (getMockMessages now channelName)
        users :=
          match lookupA st.users channelName with
          | some _ => st.users
          | none =>
            setA st.users channelName (mockChannelUsers st.currentUser channelName) }
      |> (·, none)

/-- Mock `partChannel(channelName)`: no connection or membership check;
removes the first occurrence from the channel list if present (a no-op
otherwise) and fires the part callback; logs and rosters are untouched. -/
def partChannelM (st : MockState) (channelName : List Char) :
    MockState × Option IrcError :=
  ({ st with channels := eraseFirst st.channels channelName }, none)

/-- Mock `sendMessage(channel, text)`: throws the precondition error before
any mutation when not connected; otherwise appends the user's message to
the channel's log, creating the log if absent (the simulated reply arrives
later via `setTimeout` and is not part of the synchronous effect). -/
def sendMessageM (now : Int) (st : MockState) (channel text : List Char) :
    MockState × Option IrcError :=
  if !st.connected then (st, some .notConnected)
  else
    let log := (lookupA st.messages channel).getD []
    ({ st with
        messages := setA st.messages channel
          (log ++ [{ user := st.currentUser, text := text, timestamp := now }]) },
     none)

/-! ### Claim theorems -/

/-- C4: with no provider bound (`enabled = false`), every feature service
returns its defined disabled-result shape. Each result is a constant
independent of the universally quantified provider outcome `po` and
classifier `classify`, so no adapter call is attempted and nothing can
throw. -/
theorem ai_disabled_results (message channel userNick question : List Char)
    (messages : List Msg) (pastAnswers : List QA)
    (po : Except Unit (List Char))
    (classify : List Char → Except Unit (List Char)) :
    checkSpam false message channel po = ⟨false, 0, "AI disabled".toList⟩
    ∧ summarizeMessages false messages channel po =
        "AI summarization disabled. No API key provided.".toList
    ∧ getNotificationPriority false message userNick po =
        ⟨.medium, "AI disabled".toList⟩
    ∧ smartCatchUp false messages channel po = ⟨[], [], 0, "AI disabled".toList⟩
    ∧ extractCodeSnippets false classify messages = []
    ∧ findPastAnswer false question pastAnswers po = ⟨false, none, 0, none⟩ :=
  ⟨rfl, rfl, rfl, rfl, rfl, rfl⟩

/-- C2: when the underlying provider call rejects (`.error`), every feature
service resolves to its documented fallback value instead of propagating
the rejection: `checkSpam` to `{isSpam: false, confidence: 0, reason: 'AI
error'}`, `summarizeMessages` to its fixed failure string,
`getNotificationPriority` to medium, `smartCatchUp` to empty lists, zero
count and the error summary, and `findPastAnswer` to `{foundAnswer: false,
similarity: 0}`. The hypotheses put each service on the path that reaches
its provider call (nonempty inputs, no direct-mention short circuit). -/
theorem provider_failure_fallbacks (message channel userNick question : List Char)
    (messages : List Msg) (pastAnswers : List QA)
    (hmsg : messages ≠ []) (hpa : pastAnswers ≠ [])
    (hment : includesL (toLowerL message) (toLowerL userNick) = false) :
    checkSpam true message channel (.error ()) = ⟨false, 0, "AI error".toList⟩
    ∧ summarizeMessages true messages channel (.error ()) =
        "Failed to generate summary. AI service error.".toList
    ∧ getNotificationPriority true message userNick (.error ()) =
        ⟨.medium, "AI error".toList⟩
    ∧ smartCatchUp true messages channel (.error ()) =
        ⟨[], [], 0, "AI error".toList⟩
    ∧ findPastAnswer true question pastAnswers (.error ()) =
        ⟨false, none, 0, none⟩ := by
  obtain ⟨m, ms, rfl⟩ := List.exists_cons_of_ne_nil hmsg
  obtain ⟨q, qs, rfl⟩ := List.exists_cons_of_ne_nil hpa
  refine ⟨rfl, rfl, ?_, rfl, rfl⟩
  simp only [getNotificationPriority, hment, Bool.not_true, Bool.false_eq_true,
    if_false]

theorem provider_failure_fallbacks_witness :
    ([(⟨"x".toList, none, "hello".toList, 0, "privmsg".toList⟩ : Msg)] ≠ [])
    ∧ ([(⟨"q".toList, "a".toList, "bob".toList, 0⟩ : QA)] ≠ [])
    ∧ includesL (toLowerL ("hello".toList)) (toLowerL ("alice".toList)) = false
    ∧ checkSpam true ("hello".toList) ("#c".toList) (.error ()) =
        ⟨false, 0, "AI error".toList⟩ := by
  refine ⟨by decide, by decide, by decide, ?_⟩
  exact (provider_failure_fallbacks ("hello".toList) ("#c".toList)
    ("alice".toList) ("how?".toList)
    [⟨"x".toList, none, "hello".toList, 0, "privmsg".toList⟩]
    [⟨"q".toList, "a".toList, "bob".toList, 0⟩]
    (by decide) (by decide) (by decide)).1

/-- C10: a `checkSpam` reply whose delimited confidence field parses to the
integer 0 (e.g. `"LEGITIMATE|0|harmless"`) is returned with confidence 50,
because `parseInt(confidence) || 50` treats an explicit 0 exactly like a
missing or unparseable field (0 is falsy in JS). -/
theorem checkSpam_zero_confidence (message channel reply cf : List Char)
    (h1 : ((splitOnC '|' (trimL reply)).map trimL).get? 1 = some cf)
    (h2 : parseIntJS cf = some 0) :
    (checkSpam true message channel (.ok reply)).confidence = 50 := by
  show jsOrInt ((((splitOnC '|' (trimL reply)).map trimL).get? 1).bind
    parseIntJS) 50 = 50
  rw [h1]
  show jsOrInt (parseIntJS cf) 50 = 50
  rw [h2]
  decide

theorem checkSpam_zero_confidence_witness :
    parseIntJS ("0".toList) = some 0
    ∧ (checkSpam true ("hi".toList) ("#c".toList)
        (.ok ("LEGITIMATE|0|harmless".toList))).confidence = 50 :=
  ⟨by decide,
   checkSpam_zero_confidence ("hi".toList) ("#c".toList)
     ("LEGITIMATE|0|harmless".toList) ("0".toList) (by decide) (by decide)⟩

theorem lookupA_setA {α : Type} (m : List (List Char × α)) (k : List Char)
    (v : α) : lookupA (setA m k v) k = some v := by
  induction m with
  | nil => simp [setA, lookupA]
  | cons p rest ih =>
    obtain ⟨k', v'⟩ := p
    by_cases h : (k' == k) = true
    · simp [setA, lookupA, h]
    · have h' : (k' == k) = false := by simpa using h
      simp [setA, lookupA, h', ih]

theorem memberL_false_countL {l : List (List Char)} {x : List Char}
    (h : memberL l x = false) : countL l x = 0 := by
  induction l with
  | nil => rfl
  | cons c rest ih =>
    simp only [memberL, Bool.or_eq_false_iff] at h
    simp only [countL, h.1, Bool.false_eq_true, if_false, ih h.2]

theorem memberL_true_countL {l : List (List Char)} {x : List Char}
    (h : memberL l x = true) : 1 ≤ countL l x := by
  induction l with
  | nil => simp [memberL] at h
  | cons c rest ih =>
    simp only [memberL, Bool.or_eq_true] at h
    cases h with
    | inl h1 => simp [countL, h1]
    | inr h2 =>
      have := ih h2
      simp only [countL]
      omega

theorem countL_append_single (l : List (List Char)) (x : List Char) :
    countL (l ++ [x]) x = countL l x + 1 := by
  induction l with
  | nil => simp [countL]
  | cons c rest ih =>
    show (if (c == x) = true then 1 else 0) + countL (rest ++ [x]) x =
      ((if (c == x) = true then 1 else 0) + countL rest x) + 1
    rw [ih]
    omega

theorem memberL_append_self (l : List (List Char)) (x : List Char) :
    memberL (l ++ [x]) x = true := by
  induction l with
  | nil => simp [memberL]
  | cons c rest ih => simp [memberL, ih]

theorem eraseFirst_of_not_member {l : List (List Char)} {x : List Char}
    (h : memberL l x = false) : eraseFirst l x = l := by
  induction l with
  | nil => rfl
  | cons c rest ih =>
    simp only [memberL, Bool.or_eq_false_iff] at h
    simp only [eraseFirst, h.1, Bool.false_eq_true, if_false, ih h.2]

/-- C5: `send` before `Connected` raises the precondition error
synchronously and leaves the per-channel log unchanged, on both backends
(the returned state is exactly the input state); when `Connected`, `send`
appends an own-origin message to the target channel's local log as its
synchronous effect, before and independent of any network acknowledgment
(the live client appends a `type: 'own'` message from its own nick, the
mock appends a message from `currentUser`). -/
theorem send_precondition_and_echo (now : Int) (stL : LiveState)
    (stM : MockState) (target text : List Char)
    (hLc : stL.connected = true) (hLh : stL.hasClient = true)
    (hMc : stM.connected = true) :
    (∀ s : LiveState, s.connected = false →
      sendMessageL now s target text = (s, some .notConnected))
    ∧ (sendMessageL now stL target text).2 = none
    ∧ lookupA (sendMessageL now stL target text).1.messages target =
        some ((lookupA stL.messages target).getD [] ++
          [{ from_ := stL.nick, to_ := some target, message := text,
             time := now, type := "own".toList }])
    ∧ (∀ s : MockState, s.connected = false →
      sendMessageM now s target text = (s, some .notConnected))
    ∧ (sendMessageM now stM target text).2 = none
    ∧ lookupA (sendMessageM now stM target text).1.messages target =
        some ((lookupA stM.messages target).getD [] ++
          [{ user := stM.currentUser, text := text, timestamp := now }]) := by
  refine ⟨?_, ?_, ?_, ?_, ?_, ?_⟩
  · intro s hs
    simp [sendMessageL, hs]
  · simp [sendMessageL, hLc, hLh]
  · simp only [sendMessageL, hLc, hLh, Bool.not_true, Bool.false_or,
      Bool.or_self, Bool.false_eq_true, if_false]
    exact lookupA_setA ..
  · intro s hs
    simp [sendMessageM, hs]
  · simp [sendMessageM, hMc]
  · simp only [sendMessageM, hMc, Bool.not_true, Bool.false_eq_true, if_false]
    exact lookupA_setA ..

theorem send_precondition_and_echo_witness :
    (⟨true, true, [], [], [], "me".toList⟩ : LiveState).connected = true
    ∧ (sendMessageL 7 ⟨true, true, [], [], [], "me".toList⟩
        ("#t".toList) ("hi".toList)).2 = none
    ∧ (sendMessageM 7 ⟨true, ["#t".toList], [], [], "me".toList⟩
        ("#t".toList) ("hi".toList)).2 = none
    ∧ (sendMessageL 7 ⟨false, false, [], [], [], "me".toList⟩
        ("#t".toList) ("hi".toList)) =
        (⟨false, false, [], [], [], "me".toList⟩, some .notConnected) := by
  have h := send_precondition_and_echo 7
    ⟨true, true, [], [], [], "me".toList⟩
    ⟨true, ["#t".toList], [], [], "me".toList⟩
    ("#t".toList) ("hi".toList) (by decide) (by decide) (by decide)
  exact ⟨by decide, h.2.1, h.2.2.2.2.1,
    h.1 ⟨false, false, [], [], [], "me".toList⟩ (by decide)⟩

/-- C6 counterexample: on the live backend, a disconnected session has an
empty joined-channel set, so `"#x"` was never joined, yet `partChannel`
raises the not-connected precondition error — the claim that parting a
never-joined channel never raises in every session state is false for the
live backend. -/
theorem partChannel_disconnected_raises :
    memberL (⟨false, false, [], [], [], "me".toList⟩ : LiveState).channels
      ("#x".toList) = false
    ∧ (partChannelL ⟨false, false, [], [], [], "me".toList⟩
        ("#x".toList)).2 = some .notConnected := by
  decide

/-- C6 (amended): parting a never-joined channel leaves the session state
unchanged and reports no error — on the simulated backend in every session
state, and on the live backend in every connected session; a disconnected
live session instead raises the not-connected precondition error. -/
theorem partChannel_neverJoined_noop (stM : MockState) (stL : LiveState)
    (channel : List Char)
    (hM : memberL stM.channels channel = false)
    (hLc : stL.connected = true) (hLh : stL.hasClient = true) :
    partChannelM stM channel = (stM, none)
    ∧ partChannelL stL channel = (stL, none)
    ∧ (stL.connected = false →
        partChannelL stL channel = (stL, some .notConnected)) := by
  refine ⟨?_, ?_, ?_⟩
  · simp [partChannelM, eraseFirst_of_not_member hM]
  · simp [partChannelL, hLc, hLh]
  · intro h
    rw [h] at hLc
    exact absurd hLc (by decide)

theorem partChannel_neverJoined_noop_witness :
    memberL ([["#a".toList].head!] : List (List Char)) ("#x".toList) = false
    ∧ partChannelM ⟨true, ["#a".toList], [], [], "me".toList⟩ ("#x".toList) =
        (⟨true, ["#a".toList], [], [], "me".toList⟩, none)
    ∧ partChannelL ⟨true, true, [], [], [], "me".toList⟩ ("#x".toList) =
        (⟨true, true, [], [], [], "me".toList⟩, none) := by
  have h := partChannel_neverJoined_noop
    ⟨true, ["#a".toList], [], [], "me".toList⟩
    ⟨true, true, [], [], [], "me".toList⟩
    ("#x".toList) (by decide) (by decide) (by decide)
  exact ⟨by decide, h.1, h.2.1⟩

/-- C7: for a connected session whose joined-channel set holds a channel at
most once (as every reachable state does), joining that channel twice in a
row yields exactly one entry for it, and the second join leaves the set
unchanged (idempotence, not an error) — on the mock backend's
`joinChannel` and on the live backend's own-nick `join` event handler. -/
theorem join_idempotent (now : Int) (stM : MockState) (stL : LiveState)
    (channel : List Char)
    (hMc : stM.connected = true) (hM1 : countL stM.channels channel ≤ 1)
    (hLc : stL.connected = true) (hL1 : countL stL.channels channel ≤ 1) :
    (countL ((joinChannelM now (joinChannelM now stM channel).1 channel).1).channels
        channel = 1
      ∧ ((joinChannelM now (joinChannelM now stM channel).1 channel).1).channels =
          ((joinChannelM now stM channel).1).channels)
    ∧ (countL ((handleJoinL (handleJoinL stL stL.nick channel)
          (handleJoinL stL stL.nick channel).nick channel)).channels channel = 1
      ∧ (handleJoinL (handleJoinL stL stL.nick channel)
          (handleJoinL stL stL.nick channel).nick channel).channels =
          (handleJoinL stL stL.nick channel).channels) := by
  constructor
  · -- mock backend
    have hnick : ∀ s : MockState, s.connected = true →
        ((joinChannelM now s channel).1).connected = true := by
      intro s hs
      simp [joinChannelM, hs]
    have hchan : ∀ s : MockState, s.connected = true →
        ((joinChannelM now s channel).1).channels =
          (if memberL s.channels channel then s.channels
           else s.channels ++ [channel]) := by
      intro s hs
      simp [joinChannelM, hs]
    have h1c : ((joinChannelM now stM channel).1).channels =
        (if memberL stM.channels channel then stM.channels
         else stM.channels ++ [channel]) := hchan stM hMc
    have hcount1 : countL ((joinChannelM now stM channel).1).channels channel = 1 := by
      rw [h1c]
      by_cases hm : memberL stM.channels channel = true
      · rw [if_pos hm]
        have := memberL_true_countL hm
        omega
      · rw [if_neg hm]
        rw [countL_append_single, memberL_false_countL (by simpa using hm)]
    have hmem1 : memberL ((joinChannelM now stM channel).1).channels channel = true := by
      rw [h1c]
      by_cases hm : memberL stM.channels channel = true
      · rwa [if_pos hm]
      · rw [if_neg hm]
        exact memberL_append_self ..
    have h2c : ((joinChannelM now (joinChannelM now stM channel).1 channel).1).channels =
        ((joinChannelM now stM channel).1).channels := by
      rw [hchan _ (hnick stM hMc), if_pos hmem1]
    exact ⟨h2c ▸ hcount1, h2c⟩
  · -- live backend join handler
    have hgen : ∀ s : LiveState, (handleJoinL s s.nick channel).channels =
        (if memberL s.channels channel then s.channels
         else s.channels ++ [channel]) := by
      intro s
      have hs : (s.nick == s.nick) = true := by simp
      simp [handleJoinL, hs]
    have hcount1 : countL (handleJoinL stL stL.nick channel).channels channel = 1 := by
      rw [hgen stL]
      by_cases hm : memberL stL.channels channel = true
      · rw [if_pos hm]
        have := memberL_true_countL hm
        omega
      · rw [if_neg hm]
        rw [countL_append_single, memberL_false_countL (by simpa using hm)]
    have hmem1 : memberL (handleJoinL stL stL.nick channel).channels channel = true := by
      rw [hgen stL]
      by_cases hm : memberL stL.channels channel = true
      · rwa [if_pos hm]
      · rw [if_neg hm]
        exact memberL_append_self ..
    have h2c : (handleJoinL (handleJoinL stL stL.nick channel)
        (handleJoinL stL stL.nick channel).nick channel).channels =
        (handleJoinL stL stL.nick channel).channels := by
      rw [hgen (handleJoinL stL stL.nick channel), if_pos hmem1]
    exact ⟨h2c ▸ hcount1, h2c⟩

theorem join_idempotent_witness :
    countL ((joinChannelM 0 (joinChannelM 0
        ⟨true, [], [], [], "me".toList⟩ ("#t".toList)).1 ("#t".toList)).1).channels
      ("#t".toList) = 1 := by
  have h := join_idempotent 0 ⟨true, [], [], [], "me".toList⟩
    ⟨true, true, [], [], [], "me".toList⟩ ("#t".toList)
    (by decide) (by decide) (by decide) (by decide)
  exact h.1.1

/-- C8: `smartCatchUp` parses every output field independently with its own
default: on a reply with no `DECISIONS:` line the decisions list is `[]`
while the topics list, code count and summary are still exactly what their
own extractors (`catchUpTopics`, `catchUpCode`, `catchUpSummary`) produce
from the same reply — a missing field never discards the fields that did
parse. -/
theorem smartCatchUp_independent_fields (messages : List Msg)
    (channel reply : List Char) (hmsg : messages ≠ [])
    (hdec : matchCapLine ("DECISIONS: ".toList) (trimL reply) = none) :
    smartCatchUp true messages channel (.ok reply) =
      { topics := catchUpTopics (trimL reply)
        keyDecisions := []
        codeShared := catchUpCode (trimL reply)
        summary := catchUpSummary (trimL reply) } := by
  obtain ⟨m, ms, rfl⟩ := List.exists_cons_of_ne_nil hmsg
  have hd : catchUpDecisions (trimL reply) = [] := by
    unfold catchUpDecisions
    rw [hdec]
  show ({ topics := catchUpTopics (trimL reply)
          keyDecisions := catchUpDecisions (trimL reply)
          codeShared := catchUpCode (trimL reply)
          summary := catchUpSummary (trimL reply) } : CatchUpResult) = _
  rw [hd]

theorem smartCatchUp_independent_fields_witness :
    matchCapLine ("DECISIONS: ".toList)
      (trimL ("TOPICS: api | deploy\nCODE_SNIPPETS: 2\nSUMMARY: all good".toList)) = none
    ∧ smartCatchUp true
        [⟨"alice".toList, none, "hi".toList, 0, "privmsg".toList⟩] ("#c".toList)
        (.ok ("TOPICS: api | deploy\nCODE_SNIPPETS: 2\nSUMMARY: all good".toList)) =
      ⟨["api".toList, "deploy".toList], [], 2, "all good".toList⟩ :=
  ⟨by decide,
   (smartCatchUp_independent_fields
      [⟨"alice".toList, none, "hi".toList, 0, "privmsg".toList⟩] ("#c".toList)
      ("TOPICS: api | deploy\nCODE_SNIPPETS: 2\nSUMMARY: all good".toList)
      (by decide) (by decide)).trans (by decide)⟩

/-- C9: `extractCodeSnippets` returns one snippet per fenced-block candidate
no matter how the classification calls turn out — the batch length equals
the total candidate count for any classifier — and a candidate whose
classification call rejects is kept with the generic classification
(`category: 'general'`, `context: 'Code snippet'`), its block language tag
and its original author/channel/timestamp. -/
theorem extractCodeSnippets_resilient
    (classify : List Char → Except Unit (List Char)) (messages : List Msg) :
    (extractCodeSnippets true classify messages).length =
      ((messages.map (fun m => (codeBlockMatches m.message).length)).sum)
    ∧ ∀ (m : Msg) (lang : Option (List Char)) (rawCode : List Char),
        classify (trimL rawCode) = .error () →
        analyzeSnippet classify m lang rawCode =
          { code := trimL rawCode
            language := lang.getD ("unknown".toList)
            author := m.from_
            context := "Code snippet".toList
            category := "general".toList
            timestamp := m.time
            channel := jsOrStr m.to_ ("unknown".toList) } := by
  constructor
  · show ((messages.map (fun m => (codeBlockMatches m.message).map
      (fun lc => analyzeSnippet classify m lc.1 lc.2))).flatten).length = _
    rw [List.length_flatten, List.map_map]
    simp [Function.comp_def, List.length_map]
  · intro m lang rawCode hfail
    simp only [analyzeSnippet, hfail]

/-- The C9 scenario classifier: rejects exactly the second message's code. -/
def c9classify : List Char → Except Unit (List Char) := fun c =>
  if c = ("code2".toList) then .error ()
  else .ok ("LANGUAGE: javascript\nPURPOSE: demo\nCATEGORY: example".toList)

/-- The C9 scenario messages: each carries one fenced code block; the
second block's classification call rejects. -/
def c9messages : List Msg :=
  [⟨"alice".toList, some ("#c".toList),
    "see ```js\nlet a=1;``` ok".toList, 1, "privmsg".toList⟩,
   ⟨"bob".toList, some ("#c".toList),
    "try ```\ncode2``` now".toList, 2, "privmsg".toList⟩]

theorem extractCodeSnippets_resilient_witness :
    (extractCodeSnippets true c9classify c9messages).length = 2
    ∧ c9classify (trimL ("code2".toList)) = .error ()
    ∧ analyzeSnippet c9classify
        ⟨"bob".toList, some ("#c".toList),
          "try ```\ncode2``` now".toList, 2, "privmsg".toList⟩
        none ("code2".toList) =
      ⟨"code2".toList, "unknown".toList, "bob".toList, "Code snippet".toList,
        "general".toList, 2, "#c".toList⟩ := by
  refine ⟨?_, rfl, ?_⟩
  · rw [(extractCodeSnippets_resilient c9classify c9messages).1]
    decide
  · rw [(extractCodeSnippets_resilient c9classify c9messages).2
      ⟨"bob".toList, some ("#c".toList),
        "try ```\ncode2``` now".toList, 2, "privmsg".toList⟩
      none ("code2".toList) rfl]
    decide

/-- C3 counterexample: with a one-entry history and a reply whose
`MATCH_ID: Q5` resolves to no entry of the history, `findPastAnswer` still
reports `foundAnswer: true` (with no `original` entry): the code never
validates the index against the history, contradicting the claim that an
index resolving to no entry yields a no-match result. -/
theorem findPastAnswer_unchecked_index :
    ([(⟨"how to deploy".toList, "use the script".toList, "alice".toList, 0⟩ : QA)].get? 5
      = none)
    ∧ (findPastAnswer true ("how do I deploy?".toList)
        [⟨"how to deploy".toList, "use the script".toList, "alice".toList, 0⟩]
        (.ok ("FOUND: YES\nMATCH_ID: Q5\nSIMILARITY: 80\nSUGGESTED_ANSWER: use the script".toList))).foundAnswer
      = true
    ∧ (findPastAnswer true ("how do I deploy?".toList)
        [⟨"how to deploy".toList, "use the script".toList, "alice".toList, 0⟩]
        (.ok ("FOUND: YES\nMATCH_ID: Q5\nSIMILARITY: 80\nSUGGESTED_ANSWER: use the script".toList))).original
      = none := by
  decide

/-- C3 (amended): for a nonempty history, `findPastAnswer` on a provider
reply reports `foundAnswer: true` exactly when the reply's `FOUND` field is
explicitly `yes`, a `MATCH_ID: Q<digits>` field is present, and the trimmed
suggested answer is nonempty and not the placeholder `'none'`; the
`MATCH_ID` index is not validated against the history (an out-of-range
index still yields `foundAnswer: true`, with no original entry). Any reply
failing these checks yields a no-match result, never an error. -/
theorem findPastAnswer_accepts (question reply : List Char)
    (pastAnswers : List QA) (hpa : pastAnswers ≠ []) :
    (findPastAnswer true question pastAnswers (.ok reply)).foundAnswer = true ↔
      (matchFound (trimL reply) = some yesToken
       ∧ ∃ mid, matchCapDigits midLabel (trimL reply) = some mid
       ∧ ∃ sug, (matchCapAll sugLabel (trimL reply)).map trimL = some sug
         ∧ sug ≠ [] ∧ sug ≠ noneToken) := by
  obtain ⟨q, qs, rfl⟩ := List.exists_cons_of_ne_nil hpa
  cases hmid : matchCapDigits midLabel (trimL reply) with
  | none => simp [findPastAnswer, hmid]
  | some mid =>
    cases hsug : (matchCapAll sugLabel (trimL reply)).map trimL with
    | none => simp [findPastAnswer, hmid, hsug]
    | some sug =>
      by_cases hfound : matchFound (trimL reply) = some yesToken
      · by_cases hne1 : sug = []
        · simp [findPastAnswer, hmid, hsug, hfound, hne1]
        · by_cases hne2 : sug = noneToken
          · simp [findPastAnswer, hmid, hsug, hfound, hne1, hne2]
          · simp [findPastAnswer, hmid, hsug, hfound, hne1, hne2]
      · simp [findPastAnswer, hmid, hsug, hfound]

theorem findPastAnswer_accepts_witness :
    (findPastAnswer true ("how?".toList)
      [⟨"q".toList, "a".toList, "al".toList, 0⟩]
      (.ok ("FOUND: YES\nMATCH_ID: Q0\nSIMILARITY: 90\nSUGGESTED_ANSWER: a".toList))).foundAnswer
    = true :=
  (findPastAnswer_accepts ("how?".toList)
    ("FOUND: YES\nMATCH_ID: Q0\nSIMILARITY: 90\nSUGGESTED_ANSWER: a".toList)
    [⟨"q".toList, "a".toList, "al".toList, 0⟩] (by decide)).mpr
    ⟨by decide, "0".toList, by decide, "a".toList, by decide, by decide, by decide⟩

end Phantom
